import Mathlib

/-!
Verification development for the LSP plugin repository.

Shallow embedding of:
- `plugin/core/panels.py` — the server-panel message queue, the debounced
  flush scheduling in `update_server_panel`, and the
  `LspUpdateServerPanelCommand.run` flush command;
- `plugin/__init__.py` — the package's public-API surface (`__all__`,
  imports, and the package-level `filename_to_uri`);
- the Dispatcher pending-request correlation and the per-document
  synchronization state of the session layer, which are described in the
  design document but whose code is not part of this source tree
  (definitions modelled from the spec are marked as such).

Python dicts become functions into `Option`; Python strings become Lean
`String`; the Sublime view's text buffer becomes the `String` it holds;
exceptions become an `Except` error type.
-/

namespace LSP

/-! ## `plugin/core/panels.py` — constants -/

/-- `SERVER_PANEL_MAX_LINES = 500` (panels.py line 9). -/
def SERVER_PANEL_MAX_LINES : Nat := 500

/-- `SERVER_PANEL_DEBOUNCE_TIME_MS = 80` (panels.py line 12). -/
def SERVER_PANEL_DEBOUNCE_TIME_MS : Nat := 80

/-! ## The pending-message table

`LspUpdateServerPanelCommand.to_be_processed` is a dict from window id to
the list of `(prefix, message)` pairs pending for that window.  We embed
the dict as a function `Nat → Option (List (String × String))`. -/

def Table : Type := Nat → Option (List (String × String))

/-- The class attribute's initializer: `to_be_processed = {}`. -/
def emptyTable : Table := fun _ => none

/-- `to_be_processed.setdefault(window_id, []).append((prefix, message))`:
the queue for `wid` (defaulting to the empty list) grows by one entry. -/
def enqueue (t : Table) (wid : Nat) (e : String × String) : Table :=
  fun k => if k = wid then some ((t wid).getD [] ++ [e]) else t k

/-- `to_be_processed.pop(window_id)` removes the key outright. -/
def popTable (t : Table) (wid : Nat) : Table :=
  fun k => if k = wid then none else t k

/-! ## `update_server_panel` (panels.py lines 118-147) -/

/-- The aspects of a `sublime.Window` the function reads: `is_valid()`,
`id()`, and whether `ensure_server_panel` yields a panel. -/
structure Window where
  isValid : Bool
  wid : Nat
  hasPanel : Bool

/-- A scheduling of the debounced flush: the interval passed to
`debounced` and the data captured by the `condition` closure. -/
structure Scheduled where
  interval : Nat
  windowId : Nat
  previousLength : Nat
deriving DecidableEq

/-- The `condition` closure defined inside `update_server_panel`
(panels.py lines 128-141), evaluated later, at timer expiry:
`panelSome` is the truthiness of the captured `panel` reference,
`panelValid` is `panel.is_valid()` at that time, `t` is the table at that
time, and `prev` is the captured `previous_length`. -/
def flushCondition (panelSome panelValid : Bool) (t : Table) (wid prev : Nat) : Bool :=
  if !panelSome then false
  else if !panelValid then false
  else match t wid with
    | none => false
    | some q => if 10 ≤ q.length then true else q.length == prev

/-- Modelled from the spec: the `debounced` timer/queue primitive of
`plugin/types` (not part of this source tree).  "If nothing else shows up
after 80ms, actually print the messages to the panel": at expiry of the
interval the condition is evaluated and the action fires exactly when it
returns true; otherwise nothing fires from that scheduling. -/
def debouncedFires (cond : Bool) : Bool := cond

/-- `update_server_panel(window, prefix, message)`: bail out on an invalid
window or a missing panel; otherwise append the pair to the window's
queue, record `previous_length`, and schedule the debounced flush. -/
def update_server_panel (w : Window) (t : Table) (pfx msg : String) :
    Table × Option Scheduled :=
  if !w.isValid then (t, none)
  else if !w.hasPanel then (t, none)
  else
    let t' := enqueue t w.wid (pfx, msg)
    let prev := ((t' w.wid).getD []).length
    (t', some ⟨SERVER_PANEL_DEBOUNCE_TIME_MS, w.wid, prev⟩)

/-! ## `LspUpdateServerPanelCommand.run` (panels.py lines 150-171) -/

/-- `message.replace("\r\n", "\n")`: Python's `str.replace` substitutes
non-overlapping occurrences left to right; on the two-character pattern
this is the following structural scan. -/
def replaceCRLF : List Char → List Char
  | [] => []
  | '\r' :: '\n' :: rest => '\n' :: replaceCRLF rest
  | c :: rest => c :: replaceCRLF rest

/-- `message.replace("\r\n", "\n")` then `"{0}: {1}\n".format(prefix, message)`
(panels.py lines 156-159). -/
def formatEntry (pfx msg : String) : String :=
  pfx ++ ": " ++ String.mk (replaceCRLF msg.data) ++ "\n"

/-- The insertion loop: each entry is inserted at `self.view.size()`,
i.e. appended at the end of the panel text, in list order. -/
def insertAll (panel : String) (es : List (String × String)) : String :=
  es.foldl (fun acc e => acc ++ formatEntry e.1 e.2) panel

/-- `total_lines, _ = self.view.rowcol(self.view.size())`: the row of the
end of the buffer is the number of newline characters in it. -/
def countNL (s : String) : Nat := s.data.count '\n'

/-- `self.view.full_line(0)` erased: drop the first line of the buffer,
up to and including its newline (the whole rest if it has none). -/
def dropLine : List Char → List Char
  | [] => []
  | c :: rest => if c = '\n' then rest else dropLine rest

/-- The trimming loops (panels.py lines 163-171): regions spanning the
first `k` full lines are collected walking forward from point 0 and then
erased in reverse order, which keeps the earlier regions' offsets valid;
the net effect on the buffer is dropping its first `k` full lines. -/
def dropFullLines : Nat → List Char → List Char
  | 0, s => s
  | k + 1, s => dropFullLines k (dropLine s)

def dropFullLinesStr (k : Nat) (s : String) : String :=
  String.mk (dropFullLines k s.data)

/-- The two ways `run` can raise: `self.to_be_processed.pop(window_id)`
raises `KeyError` on an absent key, and with an empty list the insertion
loop never binds `total_lines`, so the trimming loop's
`range(0, max(0, total_lines - SERVER_PANEL_MAX_LINES))` raises
`NameError`. -/
inductive RunError where
  | keyError
  | nameError
deriving DecidableEq

namespace LspUpdateServerPanelCommand

/-- `LspUpdateServerPanelCommand.run(edit, window_id)` on a panel whose
text is `panel`: pop the window's whole list, append each entry formatted,
compute the total line count, and erase `max(0, total_lines - 500)` whole
lines from the top.  Python's `max(0, a - b)` is Nat subtraction here. -/
def run (t : Table) (wid : Nat) (panel : String) :
    Except RunError (Table × String) :=
  match t wid with
  | none => .error .keyError
  | some entries =>
    if entries.isEmpty then .error .nameError
    else
      let filled := insertAll panel entries
      let total := countNL filled
      .ok (popTable t wid, dropFullLinesStr (total - SERVER_PANEL_MAX_LINES) filled)

end LspUpdateServerPanelCommand

/-- The concatenation, in list order, of the queued entries as `run`
formats them: each entry contributes `prefix ++ ": " ++ message ++ "\n"`
(with `"\r\n"` normalized) exactly once. -/
def joinedEntries : List (String × String) → String
  | [] => ""
  | e :: es => formatEntry e.1 e.2 ++ joinedEntries es

/-- Well-formedness of the pending table: every stored queue is
non-empty.  `update_server_panel` only ever appends to a queue and the
flush pops a window's whole queue, so the table the program builds
satisfies this. -/
def TableWF (t : Table) : Prop := ∀ wid q, t wid = some q → q ≠ []

/-- What `update_server_panel` does on a valid window with a panel: the
pair is appended to the window's queue, a flush is scheduled with the
80ms debounce interval, and the scheduled condition holds exactly when
the panel is still valid, the queue still exists, and the queue either
reached 10 entries or kept the length observed at enqueue time. -/
def FlushSchedulingSpec (w : Window) (t : Table) (pfx msg : String) : Prop :=
  ∃ s : Scheduled,
    (update_server_panel w t pfx msg).2 = some s ∧
    s.interval = SERVER_PANEL_DEBOUNCE_TIME_MS ∧
    SERVER_PANEL_DEBOUNCE_TIME_MS = 80 ∧
    s.windowId = w.wid ∧
    (update_server_panel w t pfx msg).1 w.wid =
      some ((t w.wid).getD [] ++ [(pfx, msg)]) ∧
    s.previousLength = ((t w.wid).getD []).length + 1 ∧
    ∀ pv t₂, debouncedFires (flushCondition true pv t₂ w.wid s.previousLength) = true ↔
      (pv = true ∧ ∃ q, t₂ w.wid = some q ∧
        (10 ≤ q.length ∨ q.length = s.previousLength))

/-- What one completed `run` guarantees for the panel bound: after the
queued messages are inserted, exactly `max(0, total_lines - 500)` whole
lines are erased from the top (the erased chunk is an initial segment of
the buffer holding exactly that many newline-terminated lines), and the
resulting panel holds at most 500 complete lines. -/
def BoundedPanelSpec (t : Table) (wid : Nat) (panel : String)
    (q : List (String × String)) : Prop :=
  ∃ t' p', LspUpdateServerPanelCommand.run t wid panel = .ok (t', p') ∧
    (∃ removed : List Char,
      (insertAll panel q).data = removed ++ p'.data ∧
      removed.count '\n' = countNL (insertAll panel q) - SERVER_PANEL_MAX_LINES) ∧
    countNL p' ≤ SERVER_PANEL_MAX_LINES ∧
    SERVER_PANEL_MAX_LINES = 500

/-- What one completed `run` guarantees for delivery: the window's whole
queue is popped (and no other window's queue is touched), and every
queued entry is appended at the end of the panel exactly once, in
enqueue order, each formatted by `formatEntry`; only then is the excess
trimmed from the top. -/
def FlushWritesAllSpec (t : Table) (wid : Nat) (panel : String)
    (q : List (String × String)) : Prop :=
  ∃ t' p', LspUpdateServerPanelCommand.run t wid panel = .ok (t', p') ∧
    t' wid = none ∧
    (∀ k, k ≠ wid → t' k = t k) ∧
    insertAll panel q = panel ++ joinedEntries q ∧
    p' = dropFullLinesStr (countNL (panel ++ joinedEntries q) - SERVER_PANEL_MAX_LINES)
      (panel ++ joinedEntries q)

/-! ## `plugin/__init__.py` — the package's public surface -/

namespace PluginInit

/-- The package-level `filename_to_uri` (plugin/__init__.py lines 18-19):
its body is a bare `return`, so for every argument it returns Python's
`None`, embedded as `Option.none`. -/
def filename_to_uri (filename : String) : Option String := none

/-- `__all__` (plugin/__init__.py lines 22-38), in source order. -/
def all_exports : List String :=
  ["__version__", "AbstractPlugin", "ClientConfig", "css",
   "filename_to_uri", "LanguageConfig", "Notification", "register_plugin",
   "Request", "Response", "Session", "SessionBufferProtocol",
   "unregister_plugin", "uri_to_filename", "WorkspaceFolder"]

/-- The names imported from `.core.sessions` (plugin/__init__.py
lines 5-9). -/
def sessionsImports : List String :=
  ["AbstractPlugin", "register_plugin", "Session",
   "SessionBufferProtocol", "unregister_plugin"]

/-- Every name bound at module scope of `plugin/__init__.py`: the imports
of lines 1-13 (lines 15-16, which would import `filename_to_uri` and
`uri_to_filename` from `.core.url`, are commented out) and the `def` of
line 18. -/
def moduleBindings : List String :=
  ["css", "Notification", "Request", "Response", "AbstractPlugin",
   "register_plugin", "Session", "SessionBufferProtocol",
   "unregister_plugin", "ClientConfig", "LanguageConfig",
   "WorkspaceFolder", "__version__", "filename_to_uri"]

end PluginInit

/-! ## Shape of `plugin/core/panels.py` as a module

For the lifecycle claim about the pending-message table we record which
top-level functions the module defines and how the table itself is
declared. -/

/-- The operations the source performs on
`LspUpdateServerPanelCommand.to_be_processed`. -/
inductive TableOp where
  | setdefault_append
  | pop_window
  | create_empty_table
  | release_all
deriving DecidableEq

/-- The table operations actually present in `panels.py`:
`setdefault(...).append(...)` in `update_server_panel` (line 125) and
`pop(window_id)` in `LspUpdateServerPanelCommand.run` (line 155).  No
other statement touches the table. -/
def panelsTableOps : List TableOp := [.setdefault_append, .pop_window]

/-- The top-level function names defined in `panels.py`. -/
def panelsModuleFunctions : List String :=
  ["mutable", "create_output_panel", "destroy_output_panels",
   "create_panel", "ensure_panel", "ensure_server_panel",
   "update_server_panel"]

/-- How the pending table is declared in the source: as the class
attribute `to_be_processed = {}` of `LspUpdateServerPanelCommand`
(panels.py line 152), initialized at class-definition time. -/
def panelsClassAttrs : List (String × String) :=
  [("LspUpdateServerPanelCommand", "to_be_processed")]

/-- Modelled from the spec: "Global process-wide session tables become a
single owned registry object with explicit lifecycle (`init` creates the
empty table; `teardown` releases all Sessions) rather than implicit
module-level mutable state."  Applied to the pending server-panel message
table, the claim requires an explicit `init`/`teardown` pair among the
module's functions and corresponding create/release table operations. -/
def specOwnedRegistryLifecycle : Prop :=
  "init" ∈ panelsModuleFunctions ∧ "teardown" ∈ panelsModuleFunctions ∧
  TableOp.create_empty_table ∈ panelsTableOps ∧
  TableOp.release_all ∈ panelsTableOps

instance : Decidable specOwnedRegistryLifecycle := by
  unfold specOwnedRegistryLifecycle
  infer_instance

/-! ## Dispatcher pending-request correlation

Modelled from the spec: the Dispatcher component is not part of this
source tree.  Per §4.3, its pending state maps request ids to waiting
continuations; a timeout "removes the pending entry", `cancel(id)`
"removes the pending entry if still outstanding" and "cancelling an id
with no pending entry is a no-op", and an incoming Response is looked up
by id, "if found, resolve exactly once and remove; if not found
(unknown or already-resolved id), discard".  We track only the pending
ids and the resolutions each event produces. -/

namespace Dispatcher

/-- The three events that can resolve a pending id. -/
inductive DEvent where
  | timeoutFires (id : Nat)
  | cancel (id : Nat)
  | responseArrives (id : Nat)
deriving DecidableEq

/-- The id an event targets. -/
def DEvent.targetId : DEvent → Nat
  | .timeoutFires i => i
  | .cancel i => i
  | .responseArrives i => i

/-- How a resolution ends: the `Timeout` failure, the `Cancelled`
failure, or the Response itself. -/
inductive Outcome where
  | timedOut
  | cancelled
  | responded
deriving DecidableEq

/-- The outcome an event would resolve its target with. -/
def DEvent.outcome : DEvent → Outcome
  | .timeoutFires _ => .timedOut
  | .cancel _ => .cancelled
  | .responseArrives _ => .responded

/-- Modelled from the spec: one Dispatcher event against the pending-id
set.  If the target is pending it is removed and resolved with the
event's outcome; otherwise the event is discarded (late response,
cancel of a non-pending id, stale timer). -/
def step (pending : List Nat) (e : DEvent) :
    List Nat × Option (Nat × Outcome) :=
  if e.targetId ∈ pending then
    (pending.erase e.targetId, some (e.targetId, e.outcome))
  else
    (pending, none)

/-- Run a sequence of events, collecting the resolutions in order. -/
def runEvents (pending : List Nat) : List DEvent → List Nat × List (Nat × Outcome)
  | [] => (pending, [])
  | e :: es =>
    match step pending e with
    | (p, none) => runEvents p es
    | (p, some r) =>
      let rest := runEvents p es
      (rest.1, r :: rest.2)

/-- The ids resolved along a run. -/
def resolvedIds (pending : List Nat) (es : List DEvent) : List Nat :=
  (runEvents pending es).2.map Prod.fst

end Dispatcher

/-! ## Per-document synchronization state

Modelled from the spec: the Session's document-sync tracking is not part
of this source tree.  Per §4.4, "Document open/change/close events update
Document Sync State and emit the corresponding notifications, strictly
ordered per document (a change notification for version N+1 is never sent
before version N's has been sent)"; per §3, the Document Sync State
"must never regress in version".  We model open (tracking begins at the
editor-supplied version, emitting that version) and change (the tracked
version increments, emitting the new version); an open of an
already-tracked uri is ignored. -/

namespace DocSync

/-- Tracked version per open document uri. -/
def SyncState : Type := String → Option Nat

def emptySync : SyncState := fun _ => none

def setVer (vs : SyncState) (u : String) (v : Nat) : SyncState :=
  fun x => if x = u then some v else vs x

/-- Editor-observed document events handed to the Session. -/
inductive DocEvent where
  | openDoc (uri : String) (ver : Nat)
  | changeDoc (uri : String)
deriving DecidableEq

/-- A document-sync notification as the Transport observes it. -/
structure SyncMsg where
  uri : String
  version : Nat
deriving DecidableEq

/-- One event against the sync state: the updated state and the
notifications handed to the Transport. -/
def step (vs : SyncState) : DocEvent → SyncState × List SyncMsg
  | .openDoc u v =>
    match vs u with
    | some _ => (vs, [])
    | none => (setVer vs u v, [⟨u, v⟩])
  | .changeDoc u =>
    match vs u with
    | none => (vs, [])
    | some n => (setVer vs u (n + 1), [⟨u, n + 1⟩])

/-- Run a sequence of document events, collecting the notifications the
Transport observes, in order. -/
def runDoc (vs : SyncState) : List DocEvent → SyncState × List SyncMsg
  | [] => (vs, [])
  | e :: es =>
    let st := step vs e
    let rest := runDoc st.1 es
    (rest.1, st.2 ++ rest.2)

/-- The versions of the notifications for one uri, in emission order. -/
def versionsFor (uri : String) (msgs : List SyncMsg) : List Nat :=
  msgs.filterMap (fun m => if m.uri = uri then some m.version else none)

end DocSync

end LSP

namespace LSP

/-! # Theorems -/

/-- C4: for every input string, the package-level `filename_to_uri` of
`plugin/__init__.py` returns `None` (its body is a bare `return`), never
a URI string, and it ignores its argument entirely. -/
theorem filename_to_uri_returns_none :
    ∀ s : String, PluginInit.filename_to_uri s = none ∧
      (PluginInit.filename_to_uri s).isSome = false ∧
      ∀ t : String, PluginInit.filename_to_uri s = PluginInit.filename_to_uri t :=
  fun _ => ⟨rfl, rfl, fun _ => rfl⟩

/-- C5: `__all__` in `plugin/__init__.py` names `uri_to_filename`, but
no name `uri_to_filename` is bound at module scope (the import from
`.core.url` is commented out), so the declared public API contains an
unbound name. -/
theorem all_exports_name_unbound :
    "uri_to_filename" ∈ PluginInit.all_exports ∧
    PluginInit.moduleBindings.contains "uri_to_filename" = false := by
  decide

/-- C6: the package's public interface exposes the Plugin Hook
registration API: `register_plugin` and `unregister_plugin` are both
imported from `.core.sessions` into `plugin/__init__.py` and both are
listed in its `__all__`. -/
theorem plugin_hook_api_exported :
    "register_plugin" ∈ PluginInit.sessionsImports ∧
    "unregister_plugin" ∈ PluginInit.sessionsImports ∧
    "register_plugin" ∈ PluginInit.all_exports ∧
    "unregister_plugin" ∈ PluginInit.all_exports := by
  decide

/-- C10 counterexample: the pending server-panel message table does not
have the owned-registry lifecycle the claim asserts — `panels.py`
defines no `init`/`teardown` functions and performs no
create-empty/release-all operation on the table, so the spec-worded
lifecycle property evaluates to false on the module. -/
theorem panel_table_lacks_registry_lifecycle :
    decide specOwnedRegistryLifecycle = false := by
  decide

/-- C10 amended: the pending server-panel message table is implicit
class-level mutable state — the class attribute `to_be_processed = {}`
of `LspUpdateServerPanelCommand`, initialized empty at class-definition
time; the module's only operations on it are the per-window
setdefault-append of `update_server_panel` and the per-window pop of the
flush command, with no `init`/`teardown` lifecycle functions. -/
theorem panel_table_is_class_level_state :
    ("LspUpdateServerPanelCommand", "to_be_processed") ∈ panelsClassAttrs ∧
    panelsTableOps = [TableOp.setdefault_append, TableOp.pop_window] ∧
    panelsModuleFunctions.contains "init" = false ∧
    panelsModuleFunctions.contains "teardown" = false ∧
    ∀ k, emptyTable k = none := by
  exact ⟨by decide, rfl, by decide, by decide, fun _ => rfl⟩

end LSP

namespace LSP

/-- C1: on a valid window whose panel exists, `update_server_panel`
appends the `(prefix, message)` pair to the window's pending queue and
schedules a debounced flush with interval
`SERVER_PANEL_DEBOUNCE_TIME_MS = 80`, whose condition holds exactly when
the panel is still valid, the queue for the window id still exists, and
the queue either has at least 10 entries or kept the length observed at
enqueue time; in every other case the condition is false and no flush
fires from that scheduling. -/
theorem update_server_panel_schedules_flush
    (w : Window) (t : Table) (pfx msg : String)
    (hw : w.isValid = true) (hp : w.hasPanel = true) :
    FlushSchedulingSpec w t pfx msg := by
  unfold FlushSchedulingSpec update_server_panel
  rw [hw, hp]
  simp only [Bool.not_true, Bool.false_eq_true, if_false]
  refine ⟨_, rfl, rfl, rfl, rfl, ?_, ?_, ?_⟩
  · simp [enqueue]
  · simp [enqueue]
  · intro pv t₂
    unfold debouncedFires flushCondition
    simp only [enqueue, if_pos rfl, Option.getD_some, List.length_append,
      List.length_singleton, Bool.not_true, Bool.false_eq_true, if_false]
    cases pv with
    | false => simp
    | true =>
      cases ht : t₂ w.wid with
      | none => simp [ht]
      | some q =>
        simp only [ht, Bool.not_false, if_neg, Bool.true_eq_false]
        by_cases hlen : 10 ≤ q.length
        · simp [hlen]
        · simp [hlen, Nat.beq_eq]

end LSP

namespace LSP

/-- C1 witness: a concrete valid window with a panel, an empty table,
and one message. -/
theorem update_server_panel_schedules_flush_witness :
    Window.isValid ⟨true, 1, true⟩ = true ∧
    Window.hasPanel ⟨true, 1, true⟩ = true ∧
    FlushSchedulingSpec ⟨true, 1, true⟩ emptyTable "srv" "msg" :=
  ⟨rfl, rfl, update_server_panel_schedules_flush ⟨true, 1, true⟩ emptyTable "srv" "msg" rfl rfl⟩

end LSP

namespace LSP

/-- Dropping one full line removes exactly one newline. -/
theorem count_dropLine (l : List Char) :
    (dropLine l).count '\n' = l.count '\n' - 1 := by
  induction l with
  | nil => rfl
  | cons c rest ih =>
    by_cases hc : c = '\n'
    · subst hc
      simp [dropLine, List.count_cons]
    · simp [dropLine, hc, List.count_cons, ih]

/-- A buffer with at least one newline splits as its first full line
(holding exactly one newline) followed by the rest. -/
theorem dropLine_append_eq (l : List Char) (h : 1 ≤ l.count '\n') :
    ∃ r, l = r ++ dropLine l ∧ r.count '\n' = 1 := by
  induction l with
  | nil => simp at h
  | cons c rest ih =>
    by_cases hc : c = '\n'
    · subst hc
      exact ⟨['\n'], by simp [dropLine], by simp⟩
    · have h' : 1 ≤ rest.count '\n' := by
        simpa [List.count_cons, hc] using h
      obtain ⟨r, hr, hcnt⟩ := ih h'
      refine ⟨c :: r, ?_, ?_⟩
      · simpa [dropLine, hc] using congrArg (c :: ·) hr
      · simp [List.count_cons, hc, hcnt]

/-- Dropping `k` full lines from a buffer holding at least `k` newlines
removes an initial segment holding exactly `k` newlines. -/
theorem dropFullLines_append_eq (k : Nat) (l : List Char) (h : k ≤ l.count '\n') :
    ∃ r, l = r ++ dropFullLines k l ∧ r.count '\n' = k := by
  induction k generalizing l with
  | zero => exact ⟨[], by simp [dropFullLines], by simp⟩
  | succ k ih =>
    have h1 : 1 ≤ l.count '\n' := le_trans (Nat.succ_le_succ (Nat.zero_le k)) h
    obtain ⟨r₁, hr₁, hc₁⟩ := dropLine_append_eq l h1
    have h2 : k ≤ (dropLine l).count '\n' := by
      rw [count_dropLine]
      omega
    obtain ⟨r₂, hr₂, hc₂⟩ := ih (dropLine l) h2
    refine ⟨r₁ ++ r₂, ?_, ?_⟩
    · show l = (r₁ ++ r₂) ++ dropFullLines k (dropLine l)
      rw [List.append_assoc, ← hr₂, ← hr₁]
    · simp [List.count_append, hc₁, hc₂]
      omega

/-- The insertion fold appends the formatted entries, in order, after the
existing panel text. -/
theorem insertAll_eq (es : List (String × String)) (panel : String) :
    insertAll panel es = panel ++ joinedEntries es := by
  induction es generalizing panel with
  | nil =>
    show panel = panel ++ ""
    rw [String.append_empty]
  | cons e es ih =>
    show insertAll (panel ++ formatEntry e.1 e.2) es = panel ++ joinedEntries (e :: es)
    rw [ih, joinedEntries, String.append_assoc]

end LSP

namespace LSP

/-- Unfolding `dropFullLinesStr` to its character-list action. -/
theorem data_dropFullLinesStr (k : Nat) (s : String) :
    (dropFullLinesStr k s).data = dropFullLines k s.data := rfl

/-- C2: after a completed `run` on a non-empty queue, the panel holds at
most `SERVER_PANEL_MAX_LINES = 500` complete lines: the command computes
the total line count after inserting all queued messages and erases
exactly `max(0, total_lines - 500)` whole lines from the top (an initial
segment of the buffer holding exactly that many newline-terminated
lines). -/
theorem server_panel_bounded (t : Table) (wid : Nat) (panel : String)
    (q : List (String × String)) (hq : t wid = some q)
    (hne : q.isEmpty = false) :
    BoundedPanelSpec t wid panel q := by
  unfold BoundedPanelSpec
  have hk : countNL (insertAll panel q) - SERVER_PANEL_MAX_LINES ≤
      (insertAll panel q).data.count '\n' := by
    unfold countNL
    omega
  obtain ⟨r, hr, hc⟩ := dropFullLines_append_eq _ _ hk
  refine ⟨popTable t wid,
    dropFullLinesStr (countNL (insertAll panel q) - SERVER_PANEL_MAX_LINES)
      (insertAll panel q), ?_, ⟨r, ?_, hc⟩, ?_, rfl⟩
  · simp only [LspUpdateServerPanelCommand.run, hq, hne, Bool.false_eq_true, if_false]
  · rw [data_dropFullLinesStr]
    exact hr
  · rw [countNL, data_dropFullLinesStr]
    have htot := congrArg (List.count '\n') hr
    rw [List.count_append] at htot
    unfold countNL at hc
    omega

/-- C2 witness: one window with one queued message flushed onto an empty
panel. -/
theorem server_panel_bounded_witness :
    (enqueue emptyTable 2 ("s", "m")) 2 = some [("s", "m")] ∧
    ([("s", "m")] : List (String × String)).isEmpty = false ∧
    BoundedPanelSpec (enqueue emptyTable 2 ("s", "m")) 2 "" [("s", "m")] :=
  ⟨rfl, rfl, server_panel_bounded (enqueue emptyTable 2 ("s", "m")) 2 "" [("s", "m")] rfl rfl⟩

/-- C3: every queued `(prefix, message)` pair is written exactly once and
in enqueue order when the flush runs: `run` pops the window's whole list
(leaving other windows untouched), appends each entry at the end of the
panel formatted as `prefix ++ ": " ++ message ++ "\n"` with `"\r\n"`
normalized to `"\n"`, and only then trims the excess from the top. -/
theorem flush_writes_all (t : Table) (wid : Nat) (panel : String)
    (q : List (String × String)) (hq : t wid = some q)
    (hne : q.isEmpty = false) :
    FlushWritesAllSpec t wid panel q := by
  unfold FlushWritesAllSpec
  refine ⟨popTable t wid,
    dropFullLinesStr (countNL (insertAll panel q) - SERVER_PANEL_MAX_LINES)
      (insertAll panel q), ?_, ?_, ?_, insertAll_eq q panel, ?_⟩
  · simp only [LspUpdateServerPanelCommand.run, hq, hne, Bool.false_eq_true, if_false]
  · simp [popTable]
  · intro k hk
    simp [popTable, hk]
  · rw [insertAll_eq]

/-- C3 witness: two queued messages, one carrying a Windows line ending,
flushed after existing panel text. -/
theorem flush_writes_all_witness :
    (enqueue (enqueue emptyTable 4 ("a", "x\r\ny")) 4 ("b", "z")) 4 =
      some [("a", "x\r\ny"), ("b", "z")] ∧
    ([("a", "x\r\ny"), ("b", "z")] : List (String × String)).isEmpty = false ∧
    FlushWritesAllSpec (enqueue (enqueue emptyTable 4 ("a", "x\r\ny")) 4 ("b", "z")) 4
      "old: line\n" [("a", "x\r\ny"), ("b", "z")] :=
  ⟨rfl, rfl, flush_writes_all _ 4 "old: line\n" [("a", "x\r\ny"), ("b", "z")] rfl rfl⟩

end LSP

namespace LSP

/-- C7: `LspUpdateServerPanelCommand.run` is well-defined only when a
non-empty list is stored for the window id — an absent key raises
`KeyError` from the pop, and an empty list leaves `total_lines` unbound
so the trimming loop raises `NameError`.  Under the scheduling
precondition established by `update_server_panel` — the table only ever
holds queues that have been appended to (so never an empty one), and the
flush condition is false once the queue has been popped — the error
branch is unreachable: whenever the condition holds on a well-formed
table, `run` succeeds. -/
theorem flush_error_branch_unreachable :
    (∀ t wid panel, t wid = none →
      LspUpdateServerPanelCommand.run t wid panel = .error .keyError) ∧
    (∀ t wid panel, t wid = some [] →
      LspUpdateServerPanelCommand.run t wid panel = .error .nameError) ∧
    TableWF emptyTable ∧
    (∀ w t pfx msg, TableWF t → TableWF (update_server_panel w t pfx msg).1) ∧
    (∀ t wid, TableWF t → TableWF (popTable t wid)) ∧
    (∀ t wid pv prev, t wid = none →
      flushCondition true pv t wid prev = false) ∧
    (∀ t wid panel pv prev, TableWF t →
      flushCondition true pv t wid prev = true →
      ∃ t' p', LspUpdateServerPanelCommand.run t wid panel = .ok (t', p')) := by
  refine ⟨?_, ?_, ?_, ?_, ?_, ?_, ?_⟩
  · intro t wid panel ht
    simp only [LspUpdateServerPanelCommand.run, ht]
  · intro t wid panel ht
    simp only [LspUpdateServerPanelCommand.run, ht, List.isEmpty_nil, if_true]
  · intro wid q h
    exact absurd h (by simp [emptyTable])
  · intro w t pfx msg hwf
    unfold update_server_panel
    by_cases hv : w.isValid
    · by_cases hp : w.hasPanel
      · rw [hv, hp]
        simp only [Bool.not_true, Bool.false_eq_true, if_false]
        intro wid q h
        by_cases hkey : wid = w.wid
        · subst hkey
          have he : (enqueue t w.wid (pfx, msg)) w.wid =
              some ((t w.wid).getD [] ++ [(pfx, msg)]) := by
            simp [enqueue]
          rw [he] at h
          injection h with h2
          subst h2
          simp
        · rw [show (enqueue t w.wid (pfx, msg)) wid = t wid by simp [enqueue, hkey]] at h
          exact hwf wid q h
      · rw [Bool.not_eq_true] at hp
        rw [hp]
        by_cases hv2 : w.isValid <;> simp [hv2] <;> exact hwf
    · rw [Bool.not_eq_true] at hv
      rw [hv]
      simpa using hwf
  · intro t wid hwf k q h
    by_cases hkey : k = wid
    · subst hkey
      simp [popTable] at h
    · rw [show (popTable t wid) k = t k by simp [popTable, hkey]] at h
      exact hwf k q h
  · intro t wid pv prev ht
    unfold flushCondition
    cases pv <;> simp [ht]
  · intro t wid panel pv prev hwf hcond
    unfold flushCondition at hcond
    cases pv with
    | false => simp at hcond
    | true =>
      cases ht : t wid with
      | none => rw [ht] at hcond; simp at hcond
      | some q =>
        have hne : q ≠ [] := hwf wid q ht
        refine ⟨popTable t wid,
          dropFullLinesStr (countNL (insertAll panel q) - SERVER_PANEL_MAX_LINES)
            (insertAll panel q), ?_⟩
        have hne2 : q.isEmpty = false := by
          cases q with
          | nil => exact absurd rfl hne
          | cons a l => rfl
        simp only [LspUpdateServerPanelCommand.run, ht, hne2, Bool.false_eq_true, if_false]

/-- C7 witness: the `KeyError` branch on an absent key, the `NameError`
branch on an explicitly emptied queue, and a successful run from a
scheduling-reachable state. -/
theorem flush_error_branch_unreachable_witness :
    LspUpdateServerPanelCommand.run emptyTable 3 "" = .error .keyError ∧
    LspUpdateServerPanelCommand.run (fun k => if k = 3 then some [] else none) 3 "" =
      .error .nameError ∧
    (∃ t' p', LspUpdateServerPanelCommand.run (enqueue emptyTable 3 ("s", "m")) 3 "" =
      .ok (t', p')) := by
  refine ⟨flush_error_branch_unreachable.1 emptyTable 3 "" rfl,
    flush_error_branch_unreachable.2.1 _ 3 "" rfl,
    flush_error_branch_unreachable.2.2.2.2.2.2 (enqueue emptyTable 3 ("s", "m")) 3 "" true 1
      ?_ (by decide)⟩
  exact flush_error_branch_unreachable.2.2.2.1 ⟨true, 3, true⟩ emptyTable "s" "m"
    flush_error_branch_unreachable.2.2.1

end LSP

namespace LSP
namespace Dispatcher

/-- C8: for every pending request id held by the Dispatcher, exactly one
of timeout, cancellation, or response-arrival resolves it, and the
Dispatcher never resolves the same pending id twice: along any event
sequence, an id pending at the start is resolved exactly once if some
event targets it and zero times otherwise. -/
theorem no_double_resolution (pending : List Nat) (es : List DEvent)
    (hnd : pending.Nodup) (id : Nat) :
    (resolvedIds pending es).count id =
      if id ∈ pending ∧ ∃ e ∈ es, DEvent.targetId e = id then 1 else 0 := by
  induction es generalizing pending with
  | nil =>
    simp [resolvedIds, runEvents]
  | cons e es ih =>
    unfold resolvedIds runEvents step
    by_cases hmem : e.targetId ∈ pending
    · rw [if_pos hmem]
      simp only [List.map_cons, List.count_cons, beq_iff_eq]
      have ihe := ih (pending.erase e.targetId) (hnd.erase e.targetId)
      unfold resolvedIds at ihe
      rw [ihe]
      by_cases hid : id = e.targetId
      · subst hid
        have hA : ¬(e.targetId ∈ pending.erase e.targetId ∧
            ∃ x ∈ es, DEvent.targetId x = e.targetId) := by
          rintro ⟨hin, -⟩
          exact ((hnd.mem_erase_iff).mp hin).1 rfl
        have hB : e.targetId ∈ pending ∧ ∃ x ∈ e :: es, DEvent.targetId x = e.targetId :=
          ⟨hmem, e, List.mem_cons_self e es, rfl⟩
        rw [if_neg hA, if_pos hB, if_pos rfl]
      · have hne2 : ¬(e.targetId = id) := fun h => hid h.symm
        rw [if_neg hne2]
        have hiff : (id ∈ pending.erase e.targetId ∧
            ∃ x ∈ es, DEvent.targetId x = id) ↔
            (id ∈ pending ∧ ∃ x ∈ e :: es, DEvent.targetId x = id) := by
          constructor
          · rintro ⟨hin, x, hx, hxt⟩
            exact ⟨((hnd.mem_erase_iff).mp hin).2, x, List.mem_cons_of_mem e hx, hxt⟩
          · rintro ⟨hin, x, hx, hxt⟩
            refine ⟨(hnd.mem_erase_iff).mpr ⟨hid, hin⟩, ?_⟩
            rcases List.mem_cons.mp hx with hxe | hxes
            · exact absurd (hxe ▸ hxt) hne2
            · exact ⟨x, hxes, hxt⟩
        rw [if_congr hiff rfl rfl]
        omega
    · rw [if_neg hmem]
      have ihe := ih pending hnd
      unfold resolvedIds at ihe
      rw [ihe]
      have hiff : (id ∈ pending ∧ ∃ x ∈ es, DEvent.targetId x = id) ↔
          (id ∈ pending ∧ ∃ x ∈ e :: es, DEvent.targetId x = id) := by
        constructor
        · rintro ⟨hin, x, hx, hxt⟩
          exact ⟨hin, x, List.mem_cons_of_mem e hx, hxt⟩
        · rintro ⟨hin, x, hx, hxt⟩
          rcases List.mem_cons.mp hx with hxe | hxes
          · refine absurd ?_ hmem
            rw [← hxe, hxt]
            exact hin
          · exact ⟨hin, x, hxes, hxt⟩
      rw [if_congr hiff rfl rfl]

/-- C8 witness: id 1 pending among two; a cancellation and a late
response both target it, and it resolves exactly once. -/
theorem no_double_resolution_witness :
    (resolvedIds [1, 2] [DEvent.cancel 1, DEvent.responseArrives 1]).count 1 = 1 := by
  have h := no_double_resolution [1, 2] [DEvent.cancel 1, DEvent.responseArrives 1]
    (by decide) 1
  rw [h]
  rw [if_pos ⟨by decide, ⟨DEvent.cancel 1, by decide, rfl⟩⟩]

end Dispatcher
end LSP

namespace LSP
namespace DocSync

/-- Updating one uri leaves every other uri's tracked version
unchanged. -/
theorem setVer_other (vs : SyncState) (u x : String) (v : Nat) (hx : x ≠ u) :
    setVer vs u v x = vs x := by
  simp [setVer, hx]

/-- Invariant for a run: the versions emitted for a uri are pairwise
increasing, and each is at most the version recorded for that uri at the
start exceeds none of them — more precisely, every emitted version
strictly exceeds any version recorded at the start. -/
theorem runDoc_inv (es : List DocEvent) (vs : SyncState) (uri : String) :
    (versionsFor uri (runDoc vs es).2).Pairwise (· < ·) ∧
    (∀ n, vs uri = some n → ∀ v ∈ versionsFor uri (runDoc vs es).2, n < v) := by
  induction es generalizing vs with
  | nil =>
    exact ⟨by simp [runDoc, versionsFor], by simp [runDoc, versionsFor]⟩
  | cons e es ih =>
    unfold runDoc
    cases e with
    | openDoc u v =>
      cases hu : vs u with
      | some k =>
        simp only [step, hu]
        exact ih vs
      | none =>
        simp only [step, hu]
        by_cases hx : u = uri
        · subst hx
          have hset : setVer vs u v u = some v := by
            simp [setVer]
          obtain ⟨ihp, ihb⟩ := ih (setVer vs u v)
          constructor
          · simp only [versionsFor, List.filterMap_append]
            simp only [versionsFor] at ihp
            rw [List.pairwise_append]
            refine ⟨by simp, ihp, ?_⟩
            intro a ha b hb
            simp at ha
            rcases ha with ⟨rfl⟩
            exact ihb v hset b hb
          · intro n hn
            rw [hu] at hn
            exact absurd hn (by simp)
        · have hne : ¬u = uri := hx
          obtain ⟨ihp, ihb⟩ := ih (setVer vs u v)
          refine ⟨?_, ?_⟩
          · simpa [versionsFor, List.filterMap_append, hne] using ihp
          · intro n hn v2 hv2
            refine ihb n ?_ v2 ?_
            · rw [setVer_other vs u uri v (fun h => hne h.symm)]
              exact hn
            · simpa [versionsFor, List.filterMap_append, hne] using hv2
    | changeDoc u =>
      cases hu : vs u with
      | none =>
        simp only [step, hu]
        exact ih vs
      | some k =>
        simp only [step, hu]
        by_cases hx : u = uri
        · subst hx
          have hset : setVer vs u (k + 1) u = some (k + 1) := by
            simp [setVer]
          obtain ⟨ihp, ihb⟩ := ih (setVer vs u (k + 1))
          constructor
          · simp only [versionsFor, List.filterMap_append]
            simp only [versionsFor] at ihp
            rw [List.pairwise_append]
            refine ⟨by simp, ihp, ?_⟩
            intro a ha b hb
            simp at ha
            rcases ha with ⟨rfl⟩
            exact ihb (k + 1) hset b hb
          · intro n hn v2 hv2
            rw [hu] at hn
            injection hn with hn2
            simp only [versionsFor, List.filterMap_append, List.mem_append] at hv2
            rcases hv2 with hv2 | hv2
            · simp [versionsFor] at hv2
              omega
            · have hlt := ihb (k + 1) hset v2 (by simpa [versionsFor] using hv2)
              omega
        · have hne : ¬u = uri := hx
          obtain ⟨ihp, ihb⟩ := ih (setVer vs u (k + 1))
          refine ⟨?_, ?_⟩
          · simpa [versionsFor, List.filterMap_append, hne] using ihp
          · intro n hn v2 hv2
            refine ihb n ?_ v2 ?_
            · rw [setVer_other vs u uri (k + 1) (fun h => hne h.symm)]
              exact hn
            · simpa [versionsFor, List.filterMap_append, hne] using hv2

end DocSync
end LSP

namespace LSP
namespace DocSync

/-- Running a concatenation of event lists reaches the same final state
as running them in sequence. -/
theorem runDoc_append_state (es₁ es₂ : List DocEvent) (vs : SyncState) :
    (runDoc vs (es₁ ++ es₂)).1 = (runDoc (runDoc vs es₁).1 es₂).1 := by
  induction es₁ generalizing vs with
  | nil => rfl
  | cons e es ih =>
    show (runDoc (step vs e).1 (es ++ es₂)).1 =
      (runDoc (runDoc (step vs e).1 es).1 es₂).1
    exact ih (step vs e).1

/-- One event never lowers a tracked version. -/
theorem step_mono (vs : SyncState) (e : DocEvent) (uri : String) (n : Nat)
    (hn : vs uri = some n) :
    ∃ m, (step vs e).1 uri = some m ∧ n ≤ m := by
  cases e with
  | openDoc u v =>
    cases hu : vs u with
    | some k => exact ⟨n, by simp [step, hu, hn], le_refl n⟩
    | none =>
      by_cases hx : uri = u
      · subst hx
        simp [hn] at hu
      · exact ⟨n, by simp [step, hu, setVer, hx, hn], le_refl n⟩
  | changeDoc u =>
    cases hu : vs u with
    | none => exact ⟨n, by simp [step, hu, hn], le_refl n⟩
    | some k =>
      by_cases hx : uri = u
      · subst hx
        have hu2 := hu
        rw [hn] at hu2
        injection hu2 with hkn
        refine ⟨k + 1, by simp [step, hu, setVer], by omega⟩
      · exact ⟨n, by simp [step, hu, setVer, hx, hn], le_refl n⟩

/-- A run never lowers a tracked version. -/
theorem runDoc_mono (es : List DocEvent) (vs : SyncState) (uri : String) (n : Nat)
    (hn : vs uri = some n) :
    ∃ m, (runDoc vs es).1 uri = some m ∧ n ≤ m := by
  induction es generalizing vs n with
  | nil => exact ⟨n, hn, le_refl n⟩
  | cons e es ih =>
    obtain ⟨m1, hm1, hle1⟩ := step_mono vs e uri n hn
    obtain ⟨m2, hm2, hle2⟩ := ih (step vs e).1 m1 hm1
    exact ⟨m2, hm2, le_trans hle1 hle2⟩

/-- C9: the document-synchronization notifications handed to the
Transport for any single uri carry strictly increasing version numbers
along any event sequence, and the recorded synchronized version for that
uri never regresses as further events are processed. -/
theorem versions_strictly_increasing :
    (∀ es uri, (versionsFor uri (runDoc emptySync es).2).Pairwise (· < ·)) ∧
    (∀ es₁ es₂ uri n, (runDoc emptySync es₁).1 uri = some n →
      ∃ m, (runDoc emptySync (es₁ ++ es₂)).1 uri = some m ∧ n ≤ m) := by
  constructor
  · intro es uri
    exact (runDoc_inv es emptySync uri).1
  · intro es₁ es₂ uri n hn
    rw [runDoc_append_state]
    exact runDoc_mono es₂ (runDoc emptySync es₁).1 uri n hn

/-- C9 witness: open at version 5 then one change; the emitted versions
are strictly increasing and the recorded version does not regress. -/
theorem versions_strictly_increasing_witness :
    (versionsFor "u" (runDoc emptySync
      [DocEvent.openDoc "u" 5, DocEvent.changeDoc "u"]).2).Pairwise (· < ·) ∧
    ((runDoc emptySync [DocEvent.openDoc "u" 5]).1 "u" = some 5 ∧
      ∃ m, (runDoc emptySync ([DocEvent.openDoc "u" 5] ++
        [DocEvent.changeDoc "u"])).1 "u" = some m ∧ 5 ≤ m) := by
  refine ⟨versions_strictly_increasing.1
      [DocEvent.openDoc "u" 5, DocEvent.changeDoc "u"] "u", ?_, ?_⟩
  · decide
  · exact versions_strictly_increasing.2 [DocEvent.openDoc "u" 5]
      [DocEvent.changeDoc "u"] "u" 5 (by decide)

end DocSync
end LSP
